import Mathlib

/-!
Verification development for `3_Partial_Agonist_Postprocessor.py`, a pandas
batch script that pairs compound rows by shared `Title`, computes per-pair
average/delta statistics for the MPO and normalized docking metrics, emits two
ranked views, and filters against a fuzzily matched benchmark compound.

The embedding has two layers, both translated from the source:
* a typed layer (`Row`/`AggRow`) for the grouping loop (lines 59-77), the
  benchmark selection, threshold extraction and filtering (lines 111-124),
  and the overall run shape (`runPipeline`);
* a generic table layer (`Table`/`Cell`) for the schema check (lines 53-56)
  and the column-rearrangement list transforms (lines 81-88 and 95-105).

Numeric cells are modelled as exact rationals (`ℚ`); a missing value (pandas
`NaN` in a derived column) is `Option.none`.  Sorting is modelled with a
stable descending comparator placing missing keys last, matching the
documented `sort_values(..., ascending=False)` ordering and default
`na_position='last'`; note the source relies on the default `kind='quicksort'`,
whose order among equal keys is not specified, so no theorem below depends on
the relative order of equal-key rows.
-/

namespace MPO

/-- One input record of the CSV: the four required columns.  `Title` is the
(non-unique) identifier; the three scores are floats in the source, modelled
as exact rationals. -/
structure Row where
  title : String
  MPO_score : ℚ
  norm_docking_score : ℚ
  docking_score : ℚ
deriving DecidableEq, Repr

/-- A `Row` extended with the four derived per-pair fields.  They are `none`
("unset", pandas `NaN`) unless the row's group had exactly two members
(source lines 62-76). -/
structure AggRow extends Row where
  Avg_MPO : Option ℚ
  Delta_MPO : Option ℚ
  Avg_norm_docking : Option ℚ
  Delta_norm_docking : Option ℚ
deriving DecidableEq, Repr

/-- Pass a row through unchanged, with the four derived fields unset: the
`len(group) != 2` branch of the loop (source lines 63-65). -/
def toAggRow (r : Row) : AggRow :=
  { toRow := r, Avg_MPO := none, Delta_MPO := none,
    Avg_norm_docking := none, Delta_norm_docking := none }

/-- The titles of `rows` in first-seen order: the group keys produced by
`df.groupby('Title', sort=False)` (source line 59). -/
def firstSeenTitles (rows : List Row) : List String :=
  rows.foldl (fun acc r => if r.title ∈ acc then acc else acc ++ [r.title]) []

/-- The group of all rows carrying title `t`, in original order: the member
rows handed to the loop body for key `t` (source line 62). -/
def groupOf (rows : List Row) (t : String) : List Row :=
  rows.filter (fun r => r.title = t)

/-- The loop body of source lines 62-76 for one group: a group of exactly two
rows is tagged (both members) with the metric mean and absolute difference for
each of the two metrics; any other group is passed through unchanged. -/
def processGroup (g : List Row) : List AggRow :=
  match g with
  | [r1, r2] =>
    let avg_mpo := (r1.MPO_score + r2.MPO_score) / 2
    let delta_mpo := |r1.MPO_score - r2.MPO_score|
    let avg_dock := (r1.norm_docking_score + r2.norm_docking_score) / 2
    let delta_dock := |r1.norm_docking_score - r2.norm_docking_score|
    [{ toRow := r1, Avg_MPO := some avg_mpo, Delta_MPO := some delta_mpo,
       Avg_norm_docking := some avg_dock, Delta_norm_docking := some delta_dock },
     { toRow := r2, Avg_MPO := some avg_mpo, Delta_MPO := some delta_mpo,
       Avg_norm_docking := some avg_dock, Delta_norm_docking := some delta_dock }]
  | _ => g.map toAggRow

/-- The flattened `processed_rows` sequence (source lines 60-77): groups in
first-seen order, each group's output rows in original relative order.
(The subsequent `pd.DataFrame(processed_rows)` materialization at line 78 is
discussed with claim C3; this definition is the row sequence the loop builds.) -/
def processed_rows (rows : List Row) : List AggRow :=
  (firstSeenTitles rows).flatMap (fun t => processGroup (groupOf rows t))

/-- Case-insensitive substring test, modelling
`Title.str.lower().str.contains(benchmark_name)` for a `benchmark_name` that
was lower-cased on entry (source lines 47 and 111).  `str.contains` treats its
pattern as a regular expression by default; for queries without regex
metacharacters this is plain substring containment, which is what is modelled. -/
def titleMatches (title q : String) : Bool :=
  decide ((q.data.map Char.toLower) <:+: (title.data.map Char.toLower))

/-- The benchmark selection `benchmark_row` (source line 111): all processed
rows whose lower-cased title contains the lower-cased query. -/
def benchmarkSelection (t : List AggRow) (q : String) : List AggRow :=
  t.filter (fun r => titleMatches r.title q)

/-- Models `benchmark_row['Avg_MPO'].dropna().iloc[0]` (source line 115): the first
present `Avg_MPO` value of the selection; `none` models the `IndexError`
raised when every selected value is missing. -/
def avg_mpo_benchmark (sel : List AggRow) : Option ℚ :=
  (sel.filterMap (·.Avg_MPO)).head?

/-- Models `benchmark_row['Avg_norm_docking'].dropna().iloc[0]` (source line 116). -/
def avg_norm_dock_benchmark (sel : List AggRow) : Option ℚ :=
  (sel.filterMap (·.Avg_norm_docking)).head?

/-- Strictly-greater comparison against a threshold, as pandas evaluates
`series > threshold`: a missing (`NaN`) value compares `False`. -/
def qgt (x : Option ℚ) (threshold : ℚ) : Bool :=
  match x with
  | some v => decide (threshold < v)
  | none => false

/-- The filtered subset `better_than_benchmark` (source lines 119-122): rows
whose `Avg_MPO` and `Avg_norm_docking` are both present and strictly greater
than the respective benchmark thresholds. -/
def better_than_benchmark (t : List AggRow) (tm td : ℚ) : List AggRow :=
  t.filter (fun r => qgt r.Avg_MPO tm && qgt r.Avg_norm_docking td)

/-- Descending comparator on an optional sort key: present keys descending,
missing keys after every present key (pandas `ascending=False` with the
default `na_position='last'`). -/
def keyGE (f : AggRow → Option ℚ) (a b : AggRow) : Bool :=
  match f a, f b with
  | some x, some y => decide (y ≤ x)
  | some _, none => true
  | none, some _ => false
  | none, none => true

/-- Models `sort_values(by=..., ascending=False)` as a stable sort under
`keyGE`.  The source's default `kind='quicksort'` leaves the order of
equal-key rows unspecified; no theorem in this file relies on that order. -/
def sortDescBy (f : AggRow → Option ℚ) (l : List AggRow) : List AggRow :=
  l.insertionSort (fun a b => keyGE f a b = true)

/-- Models `df['Title'].nunique()`: the number of distinct titles in `l`. -/
def nuniqueTitles (l : List AggRow) : Nat :=
  ((l.map (·.title)).eraseDups).length

/-- Everything the run produces after the aggregation step: the two ranked
tables (written unconditionally at source lines 89-108), the optional filtered
table (line 124), the optional summary counts (lines 134-136), whether the
benchmark-not-found warning was printed (line 113), and whether the run died
with an uncaught exception (the `IndexError` of lines 115-116). -/
structure RunOutput where
  df_sorted_mpo : List AggRow
  df_sorted_dock : List AggRow
  final_output : Option (List AggRow)
  summary_counts : Option (Nat × Nat × Nat)
  benchmark_warning : Bool
  uncaught_error : Bool
deriving DecidableEq, Repr

/-- The run from the aggregated rows onward (source lines 59-145): rank by
each aggregate, select the benchmark, and either warn (empty selection),
crash (no present threshold value), or filter, append and summarize. -/
def runPipeline (rows : List Row) (benchmark_name : String) : RunOutput :=
  let processed_df := processed_rows rows
  let df_sorted_mpo := sortDescBy (·.Avg_MPO) processed_df
  let df_sorted_dock := sortDescBy (·.Avg_norm_docking) processed_df
  let benchmark_row := benchmarkSelection processed_df benchmark_name
  if benchmark_row.isEmpty then
    { df_sorted_mpo := df_sorted_mpo, df_sorted_dock := df_sorted_dock,
      final_output := none, summary_counts := none,
      benchmark_warning := true, uncaught_error := false }
  else
    match avg_mpo_benchmark benchmark_row, avg_norm_dock_benchmark benchmark_row with
    | some tm, some td =>
      let better := better_than_benchmark processed_df tm td
      { df_sorted_mpo := df_sorted_mpo, df_sorted_dock := df_sorted_dock,
        final_output := some (better ++ benchmark_row),
        summary_counts := some
          (nuniqueTitles (df_sorted_mpo.filter (fun r => qgt r.Avg_MPO tm)),
           nuniqueTitles (df_sorted_dock.filter (fun r => qgt r.Avg_norm_docking td)),
           nuniqueTitles better),
        benchmark_warning := false, uncaught_error := false }
    | _, _ =>
      { df_sorted_mpo := df_sorted_mpo, df_sorted_dock := df_sorted_dock,
        final_output := none, summary_counts := none,
        benchmark_warning := false, uncaught_error := true }

/-! ## Generic table layer -/

/-- One cell of the delimited input table: text, an exact numeric value, or a
missing entry. -/
inductive Cell where
  | str (s : String)
  | num (x : ℚ)
  | na
deriving DecidableEq, Repr

instance : Inhabited Cell := ⟨Cell.na⟩

/-- A tabular structure: an ordered list of column names and rows of cells
positionally aligned with the columns. -/
structure Table where
  cols : List String
  rows : List (List Cell)
deriving DecidableEq, Repr

/-- The `required_columns` list (source line 53). -/
def required_columns : List String :=
  ["Title", "MPO_score", "norm_docking_score", "docking score"]

/-- Models `missing_cols` (source line 54): every required column absent from the
table, in the order of `required_columns`. -/
def missing_cols (t : Table) : List String :=
  required_columns.filter (fun c => decide (c ∉ t.cols))

/-- The schema check of source lines 55-56: raise a `ValueError` naming the
whole `missing_cols` list if it is nonempty, otherwise continue with the
table unchanged. -/
def validateSchema (t : Table) : Except (List String) Table :=
  if missing_cols t = [] then .ok t else .error (missing_cols t)

/-- Value of column `c` in one positionally aligned row: `none` when the
column is absent (a lookup the source would raise `KeyError` on). -/
def getCellRow (cols : List String) (row : List Cell) (c : String) : Option Cell :=
  if c ∈ cols then row.get? (cols.indexOf c) else none

/-- Text content of a cell (used for `Title`). -/
def cellToString : Cell → String
  | .str s => s
  | .num x => toString x
  | .na => ""

/-- Numeric content of a cell (used for the three score columns; after schema
validation these columns exist, and numeric CSV cells parse as numbers). -/
def cellToRat : Cell → ℚ
  | .num x => x
  | _ => 0

/-- Read the validated table into typed rows (the four required columns; the
source keeps any further columns as passthrough data, which the typed layer
does not need). -/
def tableToRows (t : Table) : List Row :=
  t.rows.map (fun r =>
    { title := cellToString ((getCellRow t.cols r "Title").getD .na),
      MPO_score := cellToRat ((getCellRow t.cols r "MPO_score").getD .na),
      norm_docking_score := cellToRat ((getCellRow t.cols r "norm_docking_score").getD .na),
      docking_score := cellToRat ((getCellRow t.cols r "docking score").getD .na) })

/-- The whole program: validate the schema first (source lines 53-56); a
failure there aborts before anything downstream runs or any output exists. -/
def runProgram (t : Table) (q : String) : Except (List String) RunOutput :=
  (validateSchema t).map (fun t' => runPipeline (tableToRows t') q)

/-- The column-stripping loops of source lines 82-84 and 96-100:
`cols.remove(col)` for each template column present, i.e. remove the first
occurrence of each listed name. -/
def stripColsList (strip cols : List String) : List String :=
  strip.foldl (fun cs c => if c ∈ cs then cs.erase c else cs) cols

/-- The splice of source lines 85-88 and 101-105: find `'Title'`, insert the
template columns immediately after it.  `cols.index('Title')` raises
`ValueError` when `'Title'` is absent, modelled as `none`. -/
def spliceAfterTitle (ins cols : List String) : Option (List String) :=
  if "Title" ∈ cols then
    let i := cols.indexOf "Title" + 1
    some (cols.take i ++ ins ++ cols.drop i)
  else none

/-- The columns removed by the MPO-first template (source line 82). -/
def mpo_strip : List String :=
  ["Avg_MPO", "Delta_MPO", "Avg_norm_docking", "Delta_norm_docking",
   "MPO_score", "norm_docking_score"]

/-- The columns the MPO-first template inserts after `Title` (source line 87). -/
def mpo_insert : List String :=
  ["Avg_MPO", "Delta_MPO", "MPO_score", "Avg_norm_docking",
   "Delta_norm_docking", "norm_docking_score"]

/-- The columns removed by the docking-first template (source lines 96-98). -/
def dock_strip : List String :=
  ["Avg_MPO", "Delta_MPO", "MPO_score", "Avg_norm_docking",
   "Delta_norm_docking", "norm_docking_score", "docking score"]

/-- The columns the docking-first template inserts after `Title`
(source lines 103-104). -/
def dock_insert : List String :=
  ["Avg_norm_docking", "Delta_norm_docking", "norm_docking_score",
   "docking score", "Avg_MPO", "Delta_MPO", "MPO_score"]

/-- Rebuild one row under a new column order, looking each new column up by
name in the old order (the row-level effect of `df[cols]`). -/
def reindexRow (oldCols newCols : List String) (row : List Cell) : List Cell :=
  newCols.map (fun c => (getCellRow oldCols row c).getD .na)

/-- Models `df[cols]` (source lines 89 and 106): reorder the table to the given
column list; selecting a name the table does not have raises `KeyError`,
modelled as `none`. -/
def selectCols (t : Table) (cs : List String) : Option Table :=
  if cs.all (fun c => decide (c ∈ t.cols)) then
    some { cols := cs, rows := t.rows.map (reindexRow t.cols cs) }
  else none

/-! ## Helper lemmas -/

/-- The first result of a `filterMap` is the image of the first element on
which the function is defined. -/
theorem filterMap_head_eq_find_bind {α β : Type} (l : List α) (f : α → Option β) :
    (l.filterMap f).head? = (l.find? (fun a => (f a).isSome)).bind f := by
  induction l with
  | nil => rfl
  | cons a l ih =>
    cases h : f a with
    | none => simp [List.filterMap_cons, List.find?_cons, h, ih]
    | some b => simp [List.filterMap_cons, List.find?_cons, h]

/-- Any group that is not an exact pair takes the pass-through branch of the
loop (source lines 63-65). -/
theorem processGroup_of_ne_two (g : List Row) (h : g.length ≠ 2) :
    processGroup g = g.map toAggRow := by
  match g with
  | [] => rfl
  | [r] => rfl
  | [r1, r2] => simp at h
  | r1 :: r2 :: r3 :: rest => rfl

/-! ## Example data used by witnesses and counterexamples -/

/-- Two exact pairs whose titles both contain the query `"bench"`, with
different aggregate values. -/
def exRows4 : List Row :=
  [⟨"benchA", 1/2, 1/2, 0⟩, ⟨"benchA", 1/2, 1/2, 0⟩,
   ⟨"benchB", 9/10, 9/10, 0⟩, ⟨"benchB", 9/10, 9/10, 0⟩]

/-- The aggregated form of the `"benchB"` rows of `exRows4`. -/
def exB : AggRow :=
  ⟨⟨"benchB", 9/10, 9/10, 0⟩, some (9/10), some 0, some (9/10), some 0⟩

/-- One exact pair matching `"bench"`. -/
def exRows2 : List Row :=
  [⟨"benchA", 1/2, 1/2, 0⟩, ⟨"benchA", 1/2, 1/2, 0⟩]

/-- A pair group `"A"` and a singleton group `"B"` (the spec's concrete
scenario, with rational score values). -/
def exRows3 : List Row :=
  [⟨"A", 4/5, 3/5, -9⟩, ⟨"A", 3/5, 2/5, -8⟩, ⟨"B", 1/2, 1/2, -7⟩]

/-! ## Claims -/

/-- Claim C4: for every group of exactly two rows sharing one identifier, both
output rows carry identical `Avg_MPO`, `Delta_MPO`, `Avg_norm_docking` and
`Delta_norm_docking`; for each metric the average is the arithmetic mean
`(m1+m2)/2` and the delta the absolute difference `|m1-m2|` of the two
members' scores, and swapping the two input rows leaves all four derived
values unchanged. -/
theorem C4_pair_aggregates (rows : List Row) (t : String) (r1 r2 : Row)
    (h : groupOf rows t = [r1, r2]) :
    processGroup (groupOf rows t) =
      [{ toRow := r1,
         Avg_MPO := some ((r1.MPO_score + r2.MPO_score) / 2),
         Delta_MPO := some |r1.MPO_score - r2.MPO_score|,
         Avg_norm_docking := some ((r1.norm_docking_score + r2.norm_docking_score) / 2),
         Delta_norm_docking := some |r1.norm_docking_score - r2.norm_docking_score| },
       { toRow := r2,
         Avg_MPO := some ((r1.MPO_score + r2.MPO_score) / 2),
         Delta_MPO := some |r1.MPO_score - r2.MPO_score|,
         Avg_norm_docking := some ((r1.norm_docking_score + r2.norm_docking_score) / 2),
         Delta_norm_docking := some |r1.norm_docking_score - r2.norm_docking_score| }] ∧
    processGroup [r2, r1] =
      [{ toRow := r2,
         Avg_MPO := some ((r1.MPO_score + r2.MPO_score) / 2),
         Delta_MPO := some |r1.MPO_score - r2.MPO_score|,
         Avg_norm_docking := some ((r1.norm_docking_score + r2.norm_docking_score) / 2),
         Delta_norm_docking := some |r1.norm_docking_score - r2.norm_docking_score| },
       { toRow := r1,
         Avg_MPO := some ((r1.MPO_score + r2.MPO_score) / 2),
         Delta_MPO := some |r1.MPO_score - r2.MPO_score|,
         Avg_norm_docking := some ((r1.norm_docking_score + r2.norm_docking_score) / 2),
         Delta_norm_docking := some |r1.norm_docking_score - r2.norm_docking_score| }] := by
  have e1 : (r2.MPO_score + r1.MPO_score) / 2 = (r1.MPO_score + r2.MPO_score) / 2 := by
    rw [add_comm]
  have e2 : |r2.MPO_score - r1.MPO_score| = |r1.MPO_score - r2.MPO_score| :=
    abs_sub_comm _ _
  have e3 : (r2.norm_docking_score + r1.norm_docking_score) / 2 =
      (r1.norm_docking_score + r2.norm_docking_score) / 2 := by rw [add_comm]
  have e4 : |r2.norm_docking_score - r1.norm_docking_score| =
      |r1.norm_docking_score - r2.norm_docking_score| := abs_sub_comm _ _
  have step : processGroup [r2, r1] =
      [{ toRow := r2,
         Avg_MPO := some ((r2.MPO_score + r1.MPO_score) / 2),
         Delta_MPO := some |r2.MPO_score - r1.MPO_score|,
         Avg_norm_docking := some ((r2.norm_docking_score + r1.norm_docking_score) / 2),
         Delta_norm_docking := some |r2.norm_docking_score - r1.norm_docking_score| },
       { toRow := r1,
         Avg_MPO := some ((r2.MPO_score + r1.MPO_score) / 2),
         Delta_MPO := some |r2.MPO_score - r1.MPO_score|,
         Avg_norm_docking := some ((r2.norm_docking_score + r1.norm_docking_score) / 2),
         Delta_norm_docking := some |r2.norm_docking_score - r1.norm_docking_score| }] := rfl
  rw [h]
  constructor
  · rfl
  · rw [step, e1, e2, e3, e4]

/-- Witness for C4 at the spec's concrete scenario. -/
theorem C4_pair_aggregates_witness :
    processGroup (groupOf exRows3 "A") =
      [{ toRow := ⟨"A", 4/5, 3/5, -9⟩,
         Avg_MPO := some ((4/5 + 3/5 : ℚ) / 2), Delta_MPO := some |(4/5 : ℚ) - 3/5|,
         Avg_norm_docking := some ((3/5 + 2/5 : ℚ) / 2),
         Delta_norm_docking := some |(3/5 : ℚ) - 2/5| },
       { toRow := ⟨"A", 3/5, 2/5, -8⟩,
         Avg_MPO := some ((4/5 + 3/5 : ℚ) / 2), Delta_MPO := some |(4/5 : ℚ) - 3/5|,
         Avg_norm_docking := some ((3/5 + 2/5 : ℚ) / 2),
         Delta_norm_docking := some |(3/5 : ℚ) - 2/5| }] :=
  (C4_pair_aggregates exRows3 "A" ⟨"A", 4/5, 3/5, -9⟩ ⟨"A", 3/5, 2/5, -8⟩
    (by with_unfolding_all decide)).1

/-- Claim C5: a group whose size is not 2 is emitted with its member rows
exactly equal to the input rows, the four derived fields left unset (`none`,
not zero), and unchanged cardinality. -/
theorem C5_passthrough_non_pairs (rows : List Row) (t : String)
    (h : (groupOf rows t).length ≠ 2) :
    (processGroup (groupOf rows t)).map AggRow.toRow = groupOf rows t ∧
    (processGroup (groupOf rows t)).length = (groupOf rows t).length ∧
    ∀ a ∈ processGroup (groupOf rows t),
      a.Avg_MPO = none ∧ a.Delta_MPO = none ∧
      a.Avg_norm_docking = none ∧ a.Delta_norm_docking = none := by
  rw [processGroup_of_ne_two _ h]
  refine ⟨?_, ?_, ?_⟩
  · rw [List.map_map]
    have hcomp : AggRow.toRow ∘ toAggRow = id := rfl
    rw [hcomp, List.map_id]
  · simp
  · intro a ha
    simp only [List.mem_map] at ha
    obtain ⟨r, _, rfl⟩ := ha
    exact ⟨rfl, rfl, rfl, rfl⟩

/-- Witness for C5 at the singleton group `"B"` of the concrete scenario. -/
theorem C5_passthrough_non_pairs_witness :
    (processGroup (groupOf exRows3 "B")).map AggRow.toRow = groupOf exRows3 "B" ∧
    (processGroup (groupOf exRows3 "B")).length = (groupOf exRows3 "B").length ∧
    ∀ a ∈ processGroup (groupOf exRows3 "B"),
      a.Avg_MPO = none ∧ a.Delta_MPO = none ∧
      a.Avg_norm_docking = none ∧ a.Delta_norm_docking = none :=
  C5_passthrough_non_pairs exRows3 "B" (by decide)

/-- Claim C9: each benchmark threshold is the value of the first selected
record (in table order) whose respective aggregate is present, the two
extractions are independent per column, and there are selections on which
they come from different rows. -/
theorem C9_threshold_first_present :
    (∀ sel : List AggRow,
      avg_mpo_benchmark sel =
        (sel.find? (fun r => r.Avg_MPO.isSome)).bind (fun r => r.Avg_MPO) ∧
      avg_norm_dock_benchmark sel =
        (sel.find? (fun r => r.Avg_norm_docking.isSome)).bind
          (fun r => r.Avg_norm_docking)) ∧
    ∃ sel : List AggRow,
      sel.find? (fun r => r.Avg_MPO.isSome) ≠
        sel.find? (fun r => r.Avg_norm_docking.isSome) ∧
      (avg_mpo_benchmark sel).isSome = true ∧
      (avg_norm_dock_benchmark sel).isSome = true := by
  constructor
  · intro sel
    exact ⟨filterMap_head_eq_find_bind _ _, filterMap_head_eq_find_bind _ _⟩
  · refine ⟨[⟨⟨"x", 0, 0, 0⟩, none, none, some 1, none⟩,
             ⟨⟨"y", 0, 0, 0⟩, some 2, none, some 3, none⟩], ?_, ?_, ?_⟩ <;>
      with_unfolding_all decide

/-- Claim C8: when the benchmark query matches zero identifiers the condition
is non-fatal — both ranked tables are still produced, the filtered output and
its summary are skipped, and a warning is surfaced. -/
theorem C8_benchmark_not_found_graceful (rows : List Row) (q : String)
    (h : benchmarkSelection (processed_rows rows) q = []) :
    runPipeline rows q =
      { df_sorted_mpo := sortDescBy (fun r => r.Avg_MPO) (processed_rows rows),
        df_sorted_dock := sortDescBy (fun r => r.Avg_norm_docking) (processed_rows rows),
        final_output := none, summary_counts := none,
        benchmark_warning := true, uncaught_error := false } := by
  unfold runPipeline
  simp [h]

/-- Witness for C8: a query matching no title of the concrete scenario. -/
theorem C8_benchmark_not_found_graceful_witness :
    runPipeline exRows3 "zzz" =
      { df_sorted_mpo := sortDescBy (fun r => r.Avg_MPO) (processed_rows exRows3),
        df_sorted_dock := sortDescBy (fun r => r.Avg_norm_docking) (processed_rows exRows3),
        final_output := none, summary_counts := none,
        benchmark_warning := true, uncaught_error := false } :=
  C8_benchmark_not_found_graceful exRows3 "zzz" (by with_unfolding_all decide)

/-- Claim C10: a non-empty benchmark selection in which every row's `Avg_MPO`
is unset makes the run die at threshold extraction with an uncaught exception:
no filtered output, no summary, and no benchmark-not-found warning. -/
theorem C10_all_unset_threshold_crash (rows : List Row) (q : String)
    (h1 : benchmarkSelection (processed_rows rows) q ≠ [])
    (h2 : ∀ r ∈ benchmarkSelection (processed_rows rows) q, r.Avg_MPO = none) :
    (runPipeline rows q).uncaught_error = true ∧
    (runPipeline rows q).final_output = none ∧
    (runPipeline rows q).summary_counts = none ∧
    (runPipeline rows q).benchmark_warning = false := by
  have hm : avg_mpo_benchmark (benchmarkSelection (processed_rows rows) q) = none := by
    unfold avg_mpo_benchmark
    have he : (benchmarkSelection (processed_rows rows) q).filterMap
        (fun r => r.Avg_MPO) = [] := by
      rw [List.filterMap_eq_nil_iff]
      exact h2
    rw [he]
    rfl
  have hne : (benchmarkSelection (processed_rows rows) q).isEmpty = false := by
    cases hsel : benchmarkSelection (processed_rows rows) q with
    | nil => exact absurd hsel h1
    | cons a l => rfl
  unfold runPipeline
  simp only [hne, Bool.false_eq_true, if_false, hm]
  cases hd : avg_norm_dock_benchmark (benchmarkSelection (processed_rows rows) q) <;>
    simp

/-- Witness for C10: a single-row input whose sole (size-1) group matches the
query, so the selection is non-empty with `Avg_MPO` unset everywhere. -/
theorem C10_all_unset_threshold_crash_witness :
    (runPipeline [⟨"abc", 1, 1, 1⟩] "abc").uncaught_error = true ∧
    (runPipeline [⟨"abc", 1, 1, 1⟩] "abc").final_output = none ∧
    (runPipeline [⟨"abc", 1, 1, 1⟩] "abc").summary_counts = none ∧
    (runPipeline [⟨"abc", 1, 1, 1⟩] "abc").benchmark_warning = false :=
  C10_all_unset_threshold_crash [⟨"abc", 1, 1, 1⟩] "abc"
    (by with_unfolding_all decide) (by with_unfolding_all decide)

/-- Claim C6: validation fails on any table missing required columns, the
error names every missing column, the failure precedes every output; a table
with all required columns passes through unchanged. -/
theorem C6_schema_validation (t : Table) (q : String) :
    (missing_cols t ≠ [] →
      runProgram t q = .error (missing_cols t) ∧
      ∀ c ∈ required_columns, c ∉ t.cols → c ∈ missing_cols t) ∧
    (missing_cols t = [] →
      validateSchema t = .ok t ∧
      runProgram t q = .ok (runPipeline (tableToRows t) q)) := by
  constructor
  · intro h
    constructor
    · unfold runProgram validateSchema
      simp [h, Except.map]
    · intro c hc hnc
      unfold missing_cols
      simp only [List.mem_filter, decide_eq_true_eq]
      exact ⟨hc, hnc⟩
  · intro h
    unfold runProgram validateSchema
    simp [h, Except.map]

/-- A table missing three of the four required columns. -/
def exTableMissing : Table := { cols := ["Title", "Avg_MPO"], rows := [] }

/-- A table carrying exactly the four required columns and one data row. -/
def exTable1 : Table :=
  { cols := ["Title", "MPO_score", "norm_docking_score", "docking score"],
    rows := [[Cell.str "foo", Cell.num (1/2), Cell.num (1/2), Cell.num (-5)]] }

/-- Witness for C6: the error enumerates all three absent columns; a complete
table validates unchanged. -/
theorem C6_schema_validation_witness :
    runProgram exTableMissing "q" =
      .error ["MPO_score", "norm_docking_score", "docking score"] ∧
    validateSchema exTable1 = .ok exTable1 :=
  ⟨(((C6_schema_validation exTableMissing "q").1 (by decide)).1).trans (by rfl),
   ((C6_schema_validation exTable1 "q").2 (by decide)).1⟩

/-- Claim C1 counterexample: when the query matches two groups with different
aggregates, the thresholds come from the first matching pair (`benchA`,
value 1/2), and the benchmark selection's own `benchB` rows — which exceed
those thresholds — appear in the filtered-before-append subset, contradicting
"the rows of the benchmark selection never appear in that subset". -/
theorem C1_benchmark_rows_can_reenter :
    avg_mpo_benchmark (benchmarkSelection (processed_rows exRows4) "bench") = some (1/2) ∧
    avg_norm_dock_benchmark (benchmarkSelection (processed_rows exRows4) "bench") = some (1/2) ∧
    exB ∈ benchmarkSelection (processed_rows exRows4) "bench" ∧
    exB ∈ better_than_benchmark (processed_rows exRows4) (1/2) (1/2) := by
  with_unfolding_all decide

/-- Claim C1 (amended): every row of the filtered-before-append subset has
both aggregates present and strictly above the thresholds; a benchmark
selection row lies in that subset exactly when its own aggregates strictly
exceed both thresholds (so any selected row whose `Avg_MPO` equals the MPO
threshold or whose `Avg_norm_docking` equals the docking threshold — in
particular every selected row when the selection is one exact pair — is
excluded); the selection reappears as the tail appended after the subset. -/
theorem C1_filter_strict_and_append (rows : List Row) (q : String) (tm td : ℚ)
    (hm : avg_mpo_benchmark (benchmarkSelection (processed_rows rows) q) = some tm)
    (hd : avg_norm_dock_benchmark (benchmarkSelection (processed_rows rows) q) = some td) :
    (∀ r ∈ better_than_benchmark (processed_rows rows) tm td,
      ∃ x y, r.Avg_MPO = some x ∧ tm < x ∧ r.Avg_norm_docking = some y ∧ td < y) ∧
    (∀ r ∈ benchmarkSelection (processed_rows rows) q,
      (r ∈ better_than_benchmark (processed_rows rows) tm td ↔
        (qgt r.Avg_MPO tm = true ∧ qgt r.Avg_norm_docking td = true))) ∧
    (∀ r ∈ benchmarkSelection (processed_rows rows) q,
      (r.Avg_MPO = some tm ∨ r.Avg_norm_docking = some td) →
      r ∉ better_than_benchmark (processed_rows rows) tm td) ∧
    (runPipeline rows q).final_output =
      some (better_than_benchmark (processed_rows rows) tm td ++
            benchmarkSelection (processed_rows rows) q) := by
  have hqgt : ∀ (x : Option ℚ) (c : ℚ), qgt x c = true →
      ∃ v, x = some v ∧ c < v := by
    intro x c hx
    cases x with
    | none => exact absurd hx (by simp [qgt])
    | some v =>
      refine ⟨v, rfl, ?_⟩
      simpa [qgt] using hx
  refine ⟨?_, ?_, ?_, ?_⟩
  · intro r hr
    rw [better_than_benchmark, List.mem_filter] at hr
    have hb := hr.2
    rw [Bool.and_eq_true] at hb
    obtain ⟨x, hx, hxlt⟩ := hqgt _ _ hb.1
    obtain ⟨y, hy, hylt⟩ := hqgt _ _ hb.2
    exact ⟨x, y, hx, hxlt, hy, hylt⟩
  · intro r hr
    have hrp : r ∈ processed_rows rows := by
      rw [benchmarkSelection, List.mem_filter] at hr
      exact hr.1
    rw [better_than_benchmark, List.mem_filter]
    constructor
    · intro hin
      rw [Bool.and_eq_true] at hin
      exact hin.2
    · intro hin
      rw [Bool.and_eq_true]
      exact ⟨hrp, hin⟩
  · intro r _ heq hin
    rw [better_than_benchmark, List.mem_filter, Bool.and_eq_true] at hin
    cases heq with
    | inl he =>
      have := hin.2.1
      rw [he] at this
      simp [qgt] at this
    | inr he =>
      have := hin.2.2
      rw [he] at this
      simp [qgt] at this
  · have hne : (benchmarkSelection (processed_rows rows) q).isEmpty = false := by
      cases hsel : benchmarkSelection (processed_rows rows) q with
      | nil =>
        rw [hsel] at hm
        simp [avg_mpo_benchmark] at hm
      | cons a l => rfl
    unfold runPipeline
    simp only [hne, Bool.false_eq_true, if_false, hm, hd]

/-- Witness for C1 (amended) on the single-pair input: the selection is one
exact pair, the thresholds are its own values, and the filtered output
appends the selection after the (here empty) strict-exceeders subset. -/
theorem C1_filter_strict_and_append_witness :
    (runPipeline exRows2 "bench").final_output =
      some (better_than_benchmark (processed_rows exRows2) (1/2) (1/2) ++
            benchmarkSelection (processed_rows exRows2) "bench") :=
  (C1_filter_strict_and_append exRows2 "bench" (1/2) (1/2)
    (by with_unfolding_all decide) (by with_unfolding_all decide)).2.2.2

/-! ## Column-arranger lemmas -/

/-- The guarded removal step equals plain `erase` (erasing an absent element
is the identity). -/
theorem strip_step_eq (cs : List String) (c : String) :
    (if c ∈ cs then cs.erase c else cs) = cs.erase c := by
  by_cases h : c ∈ cs
  · rw [if_pos h]
  · rw [if_neg h, List.erase_of_not_mem h]

/-- The stripping loop is a fold of `erase`. -/
theorem stripColsList_eq_foldl_erase (strip cols : List String) :
    stripColsList strip cols = strip.foldl (fun cs c => cs.erase c) cols := by
  induction strip generalizing cols with
  | nil => rfl
  | cons c rest ih =>
    have h0 : stripColsList (c :: rest) cols =
        stripColsList rest (if c ∈ cols then cols.erase c else cols) := rfl
    rw [h0, strip_step_eq, ih, List.foldl_cons]

/-- Element counts after the erase fold. -/
theorem count_foldl_erase (strip cols : List String) (a : String) :
    List.count a (strip.foldl (fun cs c => cs.erase c) cols) =
      List.count a cols - List.count a strip := by
  induction strip generalizing cols with
  | nil => simp
  | cons c rest ih =>
    rw [List.foldl_cons, ih, List.count_erase, List.count_cons]
    cases h : c == a <;> simp [h] <;> omega

/-- Membership in the erase fold for an element that is never erased. -/
theorem mem_foldl_erase (strip : List String) (cols : List String) (a : String)
    (ha : a ∈ cols) (hn : a ∉ strip) :
    a ∈ strip.foldl (fun cs c => cs.erase c) cols := by
  induction strip generalizing cols with
  | nil => exact ha
  | cons c rest ih =>
    rw [List.foldl_cons]
    have hac : a ≠ c := fun h => hn (h ▸ List.mem_cons_self c rest)
    exact ih (cols.erase c) ((List.mem_erase_of_ne hac).mpr ha)
      (fun h => hn (List.mem_cons_of_mem _ h))

/-- Row-level effect of `df[cols]`: looking a column up by name after
reindexing gives the value it had under the old column order. -/
theorem getCellRow_reindex (oldCols newCols : List String) (row : List Cell)
    (c : String) (hmem : c ∈ newCols) (hold : c ∈ oldCols)
    (hlen : row.length = oldCols.length) :
    getCellRow newCols (reindexRow oldCols newCols row) c = getCellRow oldCols row c := by
  have hj : newCols.indexOf c < newCols.length := List.indexOf_lt_length.mpr hmem
  have hk : oldCols.indexOf c < row.length := by
    rw [hlen]; exact List.indexOf_lt_length.mpr hold
  unfold getCellRow reindexRow
  rw [if_pos hmem, if_pos hold]
  rw [List.get?_map, List.get?_eq_get hj, Option.map_some']
  rw [List.indexOf_get hj]
  unfold getCellRow
  rw [if_pos hold, List.get?_eq_get hk]
  rfl

/-- Element counts of a splice. -/
theorem count_splice (sc ins : List String) (i0 : Nat) (a : String) :
    List.count a (sc.take i0 ++ ins ++ sc.drop i0) =
      List.count a sc + List.count a ins := by
  conv_rhs => rw [← List.take_append_drop i0 sc]
  rw [List.count_append, List.count_append, List.count_append]
  omega

/-- Stripping a template and splicing in a permutation of it preserves all
element counts, provided the inserted names are distinct and present. -/
theorem splice_counts (cols strip ins : List String) (i0 : Nat)
    (hperm : strip.Perm ins) (hndins : ins.Nodup)
    (hsub : ∀ c ∈ ins, c ∈ cols) (a : String) :
    List.count a ((strip.foldl (fun cs c => cs.erase c) cols).take i0 ++ ins ++
      (strip.foldl (fun cs c => cs.erase c) cols).drop i0) = List.count a cols := by
  rw [count_splice, count_foldl_erase, hperm.count_eq a]
  have hle : List.count a ins ≤ List.count a cols := by
    by_cases hmem : a ∈ ins
    · have h1 := List.nodup_iff_count_le_one.mp hndins a
      have h2 := List.count_pos_iff.mpr (hsub a hmem)
      omega
    · rw [List.count_eq_zero_of_not_mem hmem]
      exact Nat.zero_le _
  omega

/-- The common specification of the two column-arrangement stages: given a
template whose stripped and inserted column multisets coincide (as both
source templates do), the arranged column list is a permutation of the
original one — no column outside the template dropped or duplicated — and
every cell value, looked up by column name, is unchanged. -/
theorem arranger_spec (t : Table) (strip ins : List String)
    (hperm : strip.Perm ins) (hndins : ins.Nodup)
    (hsub : ∀ c ∈ ins, c ∈ t.cols)
    (hTitle : "Title" ∈ t.cols) (hTs : "Title" ∉ strip)
    (hwf : ∀ r ∈ t.rows, r.length = t.cols.length) :
    ∃ cs t',
      spliceAfterTitle ins (stripColsList strip t.cols) = some cs ∧
      cs.Perm t.cols ∧
      selectCols t cs = some t' ∧
      t'.cols = cs ∧
      t'.rows.length = t.rows.length ∧
      ∀ c ∈ t.cols, ∀ i, i < t.rows.length →
        (t'.rows.get? i).bind (fun r => getCellRow cs r c) =
          (t.rows.get? i).bind (fun r => getCellRow t.cols r c) := by
  have hTitle_sc : "Title" ∈ stripColsList strip t.cols := by
    rw [stripColsList_eq_foldl_erase]
    exact mem_foldl_erase strip t.cols "Title" hTitle hTs
  obtain ⟨cs, hcs⟩ : ∃ cs,
      (stripColsList strip t.cols).take
          ((stripColsList strip t.cols).indexOf "Title" + 1) ++ ins ++
        (stripColsList strip t.cols).drop
          ((stripColsList strip t.cols).indexOf "Title" + 1) = cs :=
    ⟨_, rfl⟩
  have hpermcs : cs.Perm t.cols := by
    rw [← hcs]
    apply List.perm_iff_count.mpr
    intro a
    rw [stripColsList_eq_foldl_erase]
    exact splice_counts t.cols strip ins _ hperm hndins hsub a
  have hall : (cs.all (fun c => decide (c ∈ t.cols))) = true := by
    rw [List.all_eq_true]
    intro c hcmem
    exact decide_eq_true (hpermcs.mem_iff.mp hcmem)
  refine ⟨cs, ⟨cs, t.rows.map (reindexRow t.cols cs)⟩, ?_, hpermcs, ?_, rfl, by simp, ?_⟩
  · unfold spliceAfterTitle
    rw [if_pos hTitle_sc]
    exact congrArg some hcs
  · unfold selectCols
    rw [hall]
    rfl
  · intro c hc i hi
    have hrow : t.rows.get? i = some (t.rows.get ⟨i, hi⟩) := List.get?_eq_get hi
    rw [List.get?_map, hrow, Option.map_some', Option.some_bind, Option.some_bind]
    exact getCellRow_reindex t.cols cs (t.rows.get ⟨i, hi⟩) c (hpermcs.mem_iff.mpr hc) hc
      (hwf _ (List.get_mem _ _ _))

/-- Claim C7: each column-arranger output's column multiset equals the
input's with only the template's moves (strip the listed columns, insert the
listed columns right after `Title`): no column outside the template is
dropped or duplicated, and no cell value, looked up by column name, changes
in any row — for the MPO-first and the docking-first templates alike. -/
theorem C7_column_arranger_preserves (t : Table)
    (hTitle : "Title" ∈ t.cols)
    (hwf : ∀ r ∈ t.rows, r.length = t.cols.length)
    (hm : ∀ c ∈ mpo_insert, c ∈ t.cols)
    (hd : ∀ c ∈ dock_insert, c ∈ t.cols) :
    (∃ cs t', spliceAfterTitle mpo_insert (stripColsList mpo_strip t.cols) = some cs ∧
      cs.Perm t.cols ∧ selectCols t cs = some t' ∧ t'.cols = cs ∧
      t'.rows.length = t.rows.length ∧
      ∀ c ∈ t.cols, ∀ i, i < t.rows.length →
        (t'.rows.get? i).bind (fun r => getCellRow cs r c) =
          (t.rows.get? i).bind (fun r => getCellRow t.cols r c)) ∧
    (∃ cs t', spliceAfterTitle dock_insert (stripColsList dock_strip t.cols) = some cs ∧
      cs.Perm t.cols ∧ selectCols t cs = some t' ∧ t'.cols = cs ∧
      t'.rows.length = t.rows.length ∧
      ∀ c ∈ t.cols, ∀ i, i < t.rows.length →
        (t'.rows.get? i).bind (fun r => getCellRow cs r c) =
          (t.rows.get? i).bind (fun r => getCellRow t.cols r c)) :=
  ⟨arranger_spec t mpo_strip mpo_insert (by decide) (by decide) hm hTitle (by decide) hwf,
   arranger_spec t dock_strip dock_insert (by decide) (by decide) hd hTitle (by decide) hwf⟩

/-- A fully aggregated table: the four required columns, the four derived
columns, and one passthrough column, with one data row. -/
def exTable9 : Table :=
  { cols := ["Title", "MPO_score", "norm_docking_score", "docking score",
             "Avg_MPO", "Delta_MPO", "Avg_norm_docking", "Delta_norm_docking", "extra"],
    rows := [[Cell.str "foo", Cell.num 1, Cell.num 2, Cell.num 3,
              Cell.num 4, Cell.num 5, Cell.num 6, Cell.num 7, Cell.str "x"]] }

/-- Witness for C7 on a concrete aggregated table. -/
theorem C7_column_arranger_preserves_witness :
    (∃ cs t', spliceAfterTitle mpo_insert (stripColsList mpo_strip exTable9.cols) = some cs ∧
      cs.Perm exTable9.cols ∧ selectCols exTable9 cs = some t' ∧ t'.cols = cs ∧
      t'.rows.length = exTable9.rows.length ∧
      ∀ c ∈ exTable9.cols, ∀ i, i < exTable9.rows.length →
        (t'.rows.get? i).bind (fun r => getCellRow cs r c) =
          (exTable9.rows.get? i).bind (fun r => getCellRow exTable9.cols r c)) ∧
    (∃ cs t', spliceAfterTitle dock_insert (stripColsList dock_strip exTable9.cols) = some cs ∧
      cs.Perm exTable9.cols ∧ selectCols exTable9 cs = some t' ∧ t'.cols = cs ∧
      t'.rows.length = exTable9.rows.length ∧
      ∀ c ∈ exTable9.cols, ∀ i, i < exTable9.rows.length →
        (t'.rows.get? i).bind (fun r => getCellRow cs r c) =
          (exTable9.rows.get? i).bind (fun r => getCellRow exTable9.cols r c)) :=
  C7_column_arranger_preserves exTable9 (by decide) (by decide) (by decide) (by decide)

/-- Claim C3 (failing-input evaluation): a schema-valid single-row input —
one group of size 1 — passes validation, but the aggregated table keeps only
the input's four columns, and selecting the MPO-template column order then
fails (`processed_df[cols]`, source line 89, a `KeyError`), so the run cannot
complete its outputs.  (In the real script the run already dies at line 78:
`pd.DataFrame(processed_rows)` receives a list holding a whole `DataFrame`
for every non-pair group rather than row `Series`, which the list-of-rows
constructor rejects.) -/
theorem C3_missing_avg_column_aborts :
    missing_cols exTable1 = [] ∧
    (tableToRows exTable1).length = 1 ∧
    firstSeenTitles (tableToRows exTable1) = ["foo"] ∧
    (groupOf (tableToRows exTable1) "foo").length = 1 ∧
    (processed_rows (tableToRows exTable1)).map AggRow.toRow = tableToRows exTable1 ∧
    spliceAfterTitle mpo_insert (stripColsList mpo_strip exTable1.cols) =
      some ["Title", "Avg_MPO", "Delta_MPO", "MPO_score", "Avg_norm_docking",
            "Delta_norm_docking", "norm_docking_score", "docking score"] ∧
    selectCols exTable1 ["Title", "Avg_MPO", "Delta_MPO", "MPO_score", "Avg_norm_docking",
            "Delta_norm_docking", "norm_docking_score", "docking score"] = none := by
  with_unfolding_all decide

end MPO
